import Mathlib

/-!
Verification of the self-hosted authentication core of the go-b2b-starter
repository: the Argon2id password hasher (`internal/modules/auth/adapters/local/password.go`),
the JWT token manager (`internal/modules/auth/adapters/local/jwt.go`), and the
auth-service adapter (`Adapter.Login` / `RefreshTokens` / `Logout` / `LogoutAll` /
`ChangePassword`) together with the SQL-backed user and refresh-token stores
(`internal/modules/users/...` and the sqlc queries).

Shallow-embedding conventions:
* Byte strings are `List Nat` with every entry `< 256`.
* Wall-clock time is an abstract `Nat`; `time.Now()` becomes an explicit `now`
  argument, and the database `NOW()` of a query issued inside an operation is
  the same `now`.
* Cryptographic primitives that live outside the repository (the Argon2id KDF,
  RSA signing, SHA-256) are modelled as ideal functionalities: injective
  symbolic functions.  Everything the repository itself does (encoding,
  decoding, splitting, comparison, control flow, store updates) is translated
  directly from the Go source.
-/

namespace SaaS

/-- Decidable equality on `Except`, so that results of the fallible
operations below can be evaluated by `decide` on concrete inputs. -/
instance {ε α : Type} [DecidableEq ε] [DecidableEq α] : DecidableEq (Except ε α) := fun x y =>
  match x, y with
  | .error a, .error b =>
    decidable_of_iff (a = b) ⟨fun h => by rw [h], fun h => by injection h⟩
  | .ok a, .ok b =>
    decidable_of_iff (a = b) ⟨fun h => by rw [h], fun h => by injection h⟩
  | .error _, .ok _ => isFalse (fun h => by injection h)
  | .ok _, .error _ => isFalse (fun h => by injection h)

/-! ### Base64 (RawStdEncoding), as used by `encoding/base64` in password.go

The Go code uses `base64.RawStdEncoding` (standard alphabet, no padding) to
encode the salt and derived key.  `b64EncodeList` / `b64DecodeList` model
`EncodeToString` / `DecodeString` on byte lists: encoding packs 3 bytes into 4
alphabet characters (with 2- and 3-character tails for 1 and 2 leftover
bytes), decoding rejects any character outside the alphabet and any input
whose length is congruent to 1 mod 4, exactly as Go's raw (unpadded,
non-strict) decoder does. -/

def b64Alphabet : List Char :=
  "ABCDEFGHIJKLMNOPQRSTUVWXYZabcdefghijklmnopqrstuvwxyz0123456789+/".data

/-- Character for a 6-bit value (index into the standard alphabet). -/
def b64Char (v : Nat) : Char := b64Alphabet.getD v 'A'

/-- Decode table of the standard alphabet: value of one character, `none` for
a character outside the alphabet (including `=`, which RawStdEncoding
rejects). -/
def b64Val (c : Char) : Option Nat :=
  let n := c.toNat
  if 65 ≤ n ∧ n ≤ 90 then some (n - 65)
  else if 97 ≤ n ∧ n ≤ 122 then some (n - 97 + 26)
  else if 48 ≤ n ∧ n ≤ 57 then some (n - 48 + 52)
  else if n = 43 then some 62
  else if n = 47 then some 63
  else none

/-- Model of `base64.RawStdEncoding.EncodeToString` on a byte list. -/
def b64EncodeList : List Nat → List Char
  | a :: b :: c :: rest =>
    b64Char (a / 4) :: b64Char (a % 4 * 16 + b / 16) ::
      b64Char (b % 16 * 4 + c / 64) :: b64Char (c % 64) :: b64EncodeList rest
  | [a, b] => [b64Char (a / 4), b64Char (a % 4 * 16 + b / 16), b64Char (b % 16 * 4)]
  | [a] => [b64Char (a / 4), b64Char (a % 4 * 16)]
  | [] => []

/-- Model of `base64.RawStdEncoding.DecodeString` on a character list: `none` is a
corrupt-input error. -/
def b64DecodeList : List Char → Option (List Nat)
  | [] => some []
  | [_] => none
  | [c1, c2] =>
    match b64Val c1, b64Val c2 with
    | some v1, some v2 => some [v1 * 4 + v2 / 16]
    | _, _ => none
  | [c1, c2, c3] =>
    match b64Val c1, b64Val c2, b64Val c3 with
    | some v1, some v2, some v3 => some [v1 * 4 + v2 / 16, v2 % 16 * 16 + v3 / 4]
    | _, _, _ => none
  | c1 :: c2 :: c3 :: c4 :: rest =>
    match b64Val c1, b64Val c2, b64Val c3, b64Val c4 with
    | some v1, some v2, some v3, some v4 =>
      match b64DecodeList rest with
      | some bs =>
        some ((v1 * 4 + v2 / 16) :: (v2 % 16 * 16 + v3 / 4) :: (v3 % 4 * 64 + v4) :: bs)
      | none => none
    | _, _, _, _ => none

/-! ### Splitting and scanning helpers used by `decodeHash`

`splitOnChar` models Go's `strings.Split(s, "$")` at the character-list
level; `parseNatChars` models the digit run consumed by an `fmt.Sscanf` `%d`
verb (at least one digit, stopping at the first non-digit; trailing input is
not an error for `Sscanf`). -/

def splitOnChar (sep : Char) : List Char → List (List Char)
  | [] => [[]]
  | c :: cs =>
    if c = sep then [] :: splitOnChar sep cs
    else
      match splitOnChar sep cs with
      | [] => [[c]]
      | part :: parts => (c :: part) :: parts

def digitsToNat (ds : List Char) : Nat :=
  ds.foldl (fun acc c => acc * 10 + (c.toNat - 48)) 0

def parseNatChars (cs : List Char) : Option (Nat × List Char) :=
  let ds := cs.takeWhile (·.isDigit)
  if ds.isEmpty then none else some (digitsToNat ds, cs.dropWhile (·.isDigit))

/-- Model of `fmt.Sscanf(parts[2], "v=%d", &version)`: literal `v=` then a number. -/
def parseVersionSegment : List Char → Option Nat
  | 'v' :: '=' :: rest =>
    match parseNatChars rest with
    | some (v, _) => some v
    | none => none
  | _ => none

/-- Model of `fmt.Sscanf(parts[3], "m=%d,t=%d,p=%d", ...)` with the unsigned range
checks Go performs when scanning into `uint32`/`uint32`/`uint8` (an
out-of-range number is a scan error). -/
def parseParamSegment (cs : List Char) : Option (Nat × Nat × Nat) :=
  match cs with
  | 'm' :: '=' :: rest =>
    match parseNatChars rest with
    | some (m, ',' :: 't' :: '=' :: rest2) =>
      match parseNatChars rest2 with
      | some (t, ',' :: 'p' :: '=' :: rest3) =>
        match parseNatChars rest3 with
        | some (p, _) =>
          if m < 2 ^ 32 ∧ t < 2 ^ 32 ∧ p < 2 ^ 8 then some (m, t, p) else none
        | none => none
      | _ => none
    | _ => none
  | _ => none

/-! ### Password hasher (`password.go`)

`NewPasswordHasher` always constructs the hasher with the fixed OWASP
parameters below, so they are plain constants here. -/

def hasherMemory : Nat := 64 * 1024
def hasherIterations : Nat := 3
def hasherParallelism : Nat := 2
def hasherSaltLength : Nat := 16
def hasherKeyLength : Nat := 32

/-- Constant `argon2.Version` (0x13). -/
def argon2Version : Nat := 19

/-- Four-byte big-endian encoding of one character's code point. -/
def charBytes (c : Char) : List Nat :=
  [c.toNat / 16777216 % 256, c.toNat / 65536 % 256, c.toNat / 256 % 256, c.toNat % 256]

/-- Fixed-width byte encoding of a password's characters. -/
def pwBytes : List Char → List Nat
  | [] => []
  | c :: cs => charBytes c ++ pwBytes cs

/-- Ideal-functionality model of `argon2.IDKey` (the `golang.org/x/crypto`
KDF, external to the repository): the derived key is determined by, and
uniquely determines, the password, the salt and the cost parameters.  The
real function truncates its output to `keyLength` bytes; the ideal model
omits the truncation (it is collision-free), so `keyLength` is unused. -/
def argon2IDKey (password : String) (salt : List Nat)
    (iterations memory : Nat) (parallelism : Nat) (_keyLength : Nat) : List Nat :=
  pwBytes password.data ++ salt ++ [memory % 256, iterations % 256, parallelism % 256]

/-- The decoded form of one self-describing encoded hash. -/
structure Argon2Params where
  memory : Nat
  iterations : Nat
  parallelism : Nat
  keyLength : Nat
deriving DecidableEq, Repr

/-- Errors returned by `decodeHash` (password.go lines 80–115), in source
order. -/
inductive DecodeError
  | invalidHashFormat
  | unsupportedAlgorithm
  | invalidVersion
  | incompatibleVersion
  | invalidParameters
  | invalidSalt
  | invalidHash
deriving DecidableEq, Repr

/-- The `fmt.Sprintf("$argon2id$v=%d$m=%d,t=%d,p=%d$%s$%s", ...)` layout of
`PasswordHasher.Hash`, written with the dollar-separated segments made
explicit. -/
def encodeHashChars (salt hash : List Nat) : List Char :=
  '$' :: ("argon2id".data ++ '$' ::
    (("v=" ++ toString argon2Version).data ++ '$' ::
      (("m=" ++ toString hasherMemory ++ ",t=" ++ toString hasherIterations ++
          ",p=" ++ toString hasherParallelism).data ++ '$' ::
        (b64EncodeList salt ++ '$' :: b64EncodeList hash))))

/-- Model of `PasswordHasher.Hash`.  The 16-byte random salt produced by `rand.Read`
is passed explicitly. -/
def Hash (password : String) (salt : List Nat) : String :=
  ⟨encodeHashChars salt
    (argon2IDKey password salt hasherIterations hasherMemory hasherParallelism hasherKeyLength)⟩

/-- Model of `PasswordHasher.decodeHash`: split on `$`, check the part count, the
algorithm id and the version, scan the parameters, base64-decode salt and
hash; `keyLength` is the length of the decoded hash. -/
def decodeHash (encodedHash : String) : Except DecodeError (Argon2Params × List Nat × List Nat) :=
  match splitOnChar '$' encodedHash.data with
  | [_, algPart, verPart, paramPart, saltPart, hashPart] =>
    if algPart ≠ "argon2id".data then .error .unsupportedAlgorithm
    else
      match parseVersionSegment verPart with
      | none => .error .invalidVersion
      | some version =>
        if version ≠ argon2Version then .error .incompatibleVersion
        else
          match parseParamSegment paramPart with
          | none => .error .invalidParameters
          | some (m, t, p) =>
            match b64DecodeList saltPart with
            | none => .error .invalidSalt
            | some salt =>
              match b64DecodeList hashPart with
              | none => .error .invalidHash
              | some hash =>
                .ok ({ memory := m, iterations := t, parallelism := p,
                       keyLength := hash.length }, salt, hash)
  | _ => .error .invalidHashFormat

/-- Model of `PasswordHasher.Verify`: decode, re-derive with the decoded parameters,
compare (the Go code's `subtle.ConstantTimeCompare` is equality). -/
def Verify (password encodedHash : String) : Except DecodeError Bool :=
  match decodeHash encodedHash with
  | .error e => .error e
  | .ok (params, salt, hash) =>
    let otherHash := argon2IDKey password salt params.iterations params.memory
      params.parallelism params.keyLength
    if hash = otherHash then .ok true else .ok false

/-- Model of `PasswordHasher.ValidatePassword`.  Go's `len(password)` is the UTF-8
byte length; the `unicode.IsUpper`-style character classes are modelled with
Lean's ASCII classifiers (the two agree on ASCII passwords), with the special
class as "punctuation or symbol": a non-alphanumeric printable character. -/
inductive PolicyError
  | tooShort
  | missingUpper
  | missingLower
  | missingDigit
  | missingSpecial
deriving DecidableEq, Repr

def isSpecialChar (c : Char) : Bool :=
  !c.isAlphanum && c ≠ ' ' && 32 < c.toNat

/-! ### Configuration (`config.go`)

`LoadConfig` reads the fields from the environment with the defaults shown in
`defaultConfig` below.  The RSA key pair is abstracted to a single `keyPair`
identifier: `LoadConfig` always installs a matching private/public pair, and a
signature is valid exactly when it was produced with the same pair. -/

structure Config where
  issuer : String
  audience : String
  accessTokenDuration : Nat
  refreshTokenDuration : Nat
  keyPair : Nat
  passwordMinLength : Nat
  passwordRequireUpper : Bool
  passwordRequireLower : Bool
  passwordRequireDigit : Bool
  passwordRequireSpecial : Bool
  maxFailedAttempts : Nat
  lockoutDuration : Nat
deriving DecidableEq, Repr

def ValidatePassword (cfg : Config) (password : String) : Except PolicyError Unit :=
  if password.utf8ByteSize < cfg.passwordMinLength then .error .tooShort
  else
    let hasUpper := password.data.any (·.isUpper)
    let hasLower := password.data.any (·.isLower)
    let hasDigit := password.data.any (·.isDigit)
    let hasSpecial := password.data.any isSpecialChar
    if cfg.passwordRequireUpper ∧ ¬hasUpper then .error .missingUpper
    else if cfg.passwordRequireLower ∧ ¬hasLower then .error .missingLower
    else if cfg.passwordRequireDigit ∧ ¬hasDigit then .error .missingDigit
    else if cfg.passwordRequireSpecial ∧ ¬hasSpecial then .error .missingSpecial
    else .ok ()

/-- The `LoadConfig` defaults (environment unset). -/
def defaultConfig : Config :=
  { issuer := "go-b2b-starter"
    audience := "go-b2b-api"
    accessTokenDuration := 15 * 60
    refreshTokenDuration := 7 * 24 * 60 * 60
    keyPair := 0
    passwordMinLength := 8
    passwordRequireUpper := true
    passwordRequireLower := true
    passwordRequireDigit := true
    passwordRequireSpecial := false
    maxFailedAttempts := 5
    lockoutDuration := 15 * 60 }

/-! ### JWT manager (`jwt.go`)

A JWT string is modelled as the data it determines: its claims, the `alg`
header, and the key pair that produced its signature.  Distinct generated
tokens carry distinct unique IDs (`uuid.New()`), so the modelling loses no
distinctions.  `HashToken` (SHA-256) is modelled as an ideal collision-free
fingerprint: a constructor around the token. -/

structure Claims where
  issuer : String
  audience : String
  subject : String
  issuedAt : Nat
  expiresAt : Nat
  tokenID : String
  userID : Int
  email : String
  emailVerified : Bool
  role : String
  tokenType : String
deriving DecidableEq, Repr

structure SignedToken where
  claims : Claims
  alg : String
  sigKey : Nat
deriving DecidableEq, Repr

structure TokenPair where
  accessToken : SignedToken
  refreshToken : SignedToken
  expiresAt : Nat
  tokenType : String
deriving DecidableEq, Repr

/-- SHA-256 fingerprint of a token, idealised as injective. -/
structure TokenHash where
  tok : SignedToken
deriving DecidableEq, Repr

def HashToken (token : SignedToken) : TokenHash := ⟨token⟩

/-- The error taxonomy shared by the JWT manager (`ErrInvalidToken`,
`ErrTokenExpired`) and the adapter / users domain (`ErrInvalidCredentials`,
`ErrAccountLocked`, `ErrAccountInactive`, `ErrUserNotFound`); policy
violations from `ValidatePassword` are wrapped. -/
inductive AuthError
  | invalidCredentials
  | accountLocked
  | accountInactive
  | invalidToken
  | tokenExpired
  | userNotFound
  | policyViolation (e : PolicyError)
deriving DecidableEq, Repr

/-- Model of `JWTManager.GenerateTokenPair`: two tokens sharing the user claims, with
distinct type tags, unique IDs and expiry horizons, both signed RS256 with
the configured key.  `uuid.New()` values are passed as `jti1`/`jti2`. -/
def GenerateTokenPair (cfg : Config) (userID : Int) (email : String)
    (emailVerified : Bool) (role : String) (now : Nat) (jti1 jti2 : String) : TokenPair :=
  let accessClaims : Claims :=
    { issuer := cfg.issuer, audience := cfg.audience, subject := toString userID
      issuedAt := now, expiresAt := now + cfg.accessTokenDuration, tokenID := jti1
      userID := userID, email := email, emailVerified := emailVerified, role := role
      tokenType := "access" }
  let refreshClaims : Claims :=
    { issuer := cfg.issuer, audience := cfg.audience, subject := toString userID
      issuedAt := now, expiresAt := now + cfg.refreshTokenDuration, tokenID := jti2
      userID := userID, email := email, emailVerified := emailVerified, role := role
      tokenType := "refresh" }
  { accessToken := ⟨accessClaims, "RS256", cfg.keyPair⟩
    refreshToken := ⟨refreshClaims, "RS256", cfg.keyPair⟩
    expiresAt := now + cfg.accessTokenDuration
    tokenType := "Bearer" }

/-- Model of `JWTManager.verifyToken`: the keyfunc rejects a non-RSA `alg`; parsing
fails on a bad signature; an expired token is reported as `tokenExpired`;
then the type tag, issuer and audience are checked in source order. -/
def verifyToken (cfg : Config) (now : Nat) (token : SignedToken)
    (expectedType : String) : Except AuthError Claims :=
  if token.alg ≠ "RS256" ∧ token.alg ≠ "RS384" ∧ token.alg ≠ "RS512" then
    .error .invalidToken
  else if token.sigKey ≠ cfg.keyPair then .error .invalidToken
  else if token.claims.expiresAt ≤ now then .error .tokenExpired
  else if token.claims.tokenType ≠ expectedType then .error .invalidToken
  else if token.claims.issuer ≠ cfg.issuer then .error .invalidToken
  else if token.claims.audience ≠ cfg.audience then .error .invalidToken
  else .ok token.claims

def VerifyAccessToken (cfg : Config) (now : Nat) (token : SignedToken) : Except AuthError Claims :=
  verifyToken cfg now token "access"

def VerifyRefreshToken (cfg : Config) (now : Nat) (token : SignedToken) : Except AuthError Claims :=
  verifyToken cfg now token "refresh"

/-! ### User and refresh-token stores (`entity.go`, the repositories and the
sqlc queries)

The stores are the only shared state; they are modelled as lists of records,
and each repository method as the state transformation its SQL performs. -/

inductive UserStatus
  | pendingVerification
  | active
  | suspended
  | deleted
deriving DecidableEq, Repr

structure UserRec where
  id : Int
  email : String
  passwordHash : String
  emailVerified : Bool
  fullName : Option String
  status : UserStatus
  role : String
  failedLoginAttempts : Nat
  lockedUntil : Option Nat
  passwordChangedAt : Option Nat
  lastLoginAt : Option Nat
  lastLoginIP : Option String
deriving DecidableEq, Repr

/-- Model of `User.IsLocked`: `locked_until` is set and lies in the future. -/
def UserRec.isLocked (u : UserRec) (now : Nat) : Bool :=
  match u.lockedUntil with
  | none => false
  | some t => decide (now < t)

structure StoredRefreshToken where
  userID : Int
  tokenHash : TokenHash
  expiresAt : Nat
  revoked : Bool
  revokedAt : Option Nat
  deviceInfo : Option String
  ipAddress : Option String
  userAgent : Option String
deriving DecidableEq, Repr

structure AuthState where
  users : List UserRec
  tokens : List StoredRefreshToken
deriving DecidableEq, Repr

/-- Lookup `GetUserByEmail` (emails are unique in the schema). -/
def getUserByEmail (st : AuthState) (email : String) : Option UserRec :=
  st.users.find? (fun u => u.email = email)

def getUserByID (st : AuthState) (id : Int) : Option UserRec :=
  st.users.find? (fun u => u.id = id)

/-- Lookup `GetRefreshTokenByHash`: `WHERE token_hash = $1 AND expires_at > NOW()`
— revoked rows are still returned, expired rows are not. -/
def getTokenByHash (st : AuthState) (h : TokenHash) (now : Nat) : Option StoredRefreshToken :=
  st.tokens.find? (fun r => decide (r.tokenHash = h ∧ now < r.expiresAt))

/-- Update `RevokeRefreshToken`: `SET revoked = TRUE, revoked_at = NOW() WHERE
token_hash = $1`. -/
def revokeToken (st : AuthState) (h : TokenHash) (now : Nat) : AuthState :=
  { st with tokens := st.tokens.map fun r =>
      if r.tokenHash = h then { r with revoked := true, revokedAt := some now } else r }

/-- Update `RevokeAllUserRefreshTokens`: `SET revoked = TRUE, revoked_at = NOW()
WHERE user_id = $1 AND revoked = FALSE`. -/
def revokeAllForUser (st : AuthState) (uid : Int) (now : Nat) : AuthState :=
  { st with tokens := st.tokens.map fun r =>
      if r.userID = uid ∧ r.revoked = false then
        { r with revoked := true, revokedAt := some now }
      else r }

/-- Insert `CreateRefreshToken`: adds one unrevoked row. -/
def createToken (st : AuthState) (uid : Int) (h : TokenHash) (expiresAt : Nat)
    (deviceInfo ipAddress userAgent : Option String) : AuthState :=
  { st with tokens := st.tokens ++
      [{ userID := uid, tokenHash := h, expiresAt := expiresAt, revoked := false
         revokedAt := none, deviceInfo := deviceInfo, ipAddress := ipAddress
         userAgent := userAgent }] }

def incrementFailedLoginAttempts (st : AuthState) (id : Int) : AuthState :=
  { st with users := st.users.map fun u =>
      if u.id = id then { u with failedLoginAttempts := u.failedLoginAttempts + 1 } else u }

/-- Update `ResetFailedLoginAttempts` also clears `locked_until` (see the SQL). -/
def resetFailedLoginAttempts (st : AuthState) (id : Int) : AuthState :=
  { st with users := st.users.map fun u =>
      if u.id = id then { u with failedLoginAttempts := 0, lockedUntil := none } else u }

def lockAccount (st : AuthState) (id : Int) (until_ : Nat) : AuthState :=
  { st with users := st.users.map fun u =>
      if u.id = id then { u with lockedUntil := some until_ } else u }

def updateLastLogin (st : AuthState) (id : Int) (ip : String) (now : Nat) : AuthState :=
  { st with users := st.users.map fun u =>
      if u.id = id then
        { u with lastLoginAt := some now
                 lastLoginIP := if ip = "" then none else some ip }
      else u }

def updatePassword (st : AuthState) (id : Int) (newHash : String) (now : Nat) : AuthState :=
  { st with users := st.users.map fun u =>
      if u.id = id then { u with passwordHash := newHash, passwordChangedAt := some now } else u }

/-- Infrastructure-failure injection for the store writes whose errors the
adapter logs and swallows (`a.log.Error(...)` branches in factory.go).  A
`true` flag makes the corresponding repository call fail, leaving the store
unchanged; the adapter's control flow is identical either way. -/
structure FailureProfile where
  incrementFails : Bool
  lockFails : Bool
  resetFails : Bool
  createFails : Bool
  updateLastLoginFails : Bool
  revokeFails : Bool
  revokeAllFails : Bool
deriving DecidableEq, Repr

def FailureProfile.reliable : FailureProfile :=
  ⟨false, false, false, false, false, false, false⟩

/-! ### Auth service adapter (`factory.go`) -/

/-- Model of `Adapter.Login` (factory.go lines 114–206).  Returns the result and the
store state after the call; `jti1`/`jti2` are the token IDs minted by
`uuid.New()` inside `GenerateTokenPair`. -/
def Login (cfg : Config) (fp : FailureProfile) (st : AuthState)
    (email password ipAddress _userAgent : String) (now : Nat) (jti1 jti2 : String) :
    Except AuthError (TokenPair × UserRec) × AuthState :=
  match getUserByEmail st email with
  | none => (.error .invalidCredentials, st)
  | some user =>
    if user.isLocked now then (.error .accountLocked, st)
    else if user.status ≠ .active ∧ user.status ≠ .pendingVerification then
      (.error .accountInactive, st)
    else
      match Verify password user.passwordHash with
      | .ok true =>
        let st1 :=
          if user.failedLoginAttempts > 0 then
            if fp.resetFails then st else resetFailedLoginAttempts st user.id
          else st
        let pair := GenerateTokenPair cfg user.id user.email user.emailVerified
          user.role now jti1 jti2
        let st2 :=
          if fp.createFails then st1
          else createToken st1 user.id (HashToken pair.refreshToken)
            (now + cfg.refreshTokenDuration) none
            (if ipAddress = "" then none else some ipAddress)
            (if _userAgent = "" then none else some _userAgent)
        let st3 :=
          if fp.updateLastLoginFails then st2 else updateLastLogin st2 user.id ipAddress now
        (.ok (pair, user), st3)
      | _ =>
        let st1 := if fp.incrementFails then st else incrementFailedLoginAttempts st user.id
        let st2 :=
          if user.failedLoginAttempts + 1 ≥ cfg.maxFailedAttempts then
            if fp.lockFails then st1 else lockAccount st1 user.id (now + cfg.lockoutDuration)
          else st1
        (.error .invalidCredentials, st2)

/-- Model of `Adapter.RefreshTokens` (factory.go lines 209–260): verify the refresh
JWT, look the hash up (any lookup failure becomes `invalidToken`), treat a
revoked row as reuse and revoke all of the claimed user's tokens, otherwise
rotate: revoke the presented hash, mint and persist a new pair. -/
def RefreshTokens (cfg : Config) (fp : FailureProfile) (st : AuthState)
    (refreshToken : SignedToken) (now : Nat) (jti1 jti2 : String) :
    Except AuthError TokenPair × AuthState :=
  match VerifyRefreshToken cfg now refreshToken with
  | .error e => (.error e, st)
  | .ok claims =>
    let tokenHash := HashToken refreshToken
    match getTokenByHash st tokenHash now with
    | none => (.error .invalidToken, st)
    | some storedToken =>
      if storedToken.revoked then
        let st1 := if fp.revokeAllFails then st else revokeAllForUser st claims.userID now
        (.error .invalidToken, st1)
      else
        let st1 := if fp.revokeFails then st else revokeToken st tokenHash now
        let pair := GenerateTokenPair cfg claims.userID claims.email claims.emailVerified
          claims.role now jti1 jti2
        let st2 :=
          if fp.createFails then st1
          else createToken st1 claims.userID (HashToken pair.refreshToken)
            (now + cfg.refreshTokenDuration) none none none
        (.ok pair, st2)

/-- Model of `Adapter.Logout`: hash the presented token and revoke the matching row. -/
def Logout (st : AuthState) (refreshToken : SignedToken) (now : Nat) :
    Except AuthError Unit × AuthState :=
  (.ok (), revokeToken st (HashToken refreshToken) now)

/-- Model of `Adapter.LogoutAll`: revoke every token of the user. -/
def LogoutAll (st : AuthState) (userID : Int) (now : Nat) :
    Except AuthError Unit × AuthState :=
  (.ok (), revokeAllForUser st userID now)

/-- Model of `Adapter.ChangePassword` (factory.go lines 274–316).  The fresh salt for
the new password's hash is passed explicitly. -/
def ChangePassword (cfg : Config) (fp : FailureProfile) (st : AuthState)
    (userID : Int) (currentPassword newPassword : String) (salt : List Nat) (now : Nat) :
    Except AuthError Unit × AuthState :=
  match getUserByID st userID with
  | none => (.error .userNotFound, st)
  | some user =>
    match Verify currentPassword user.passwordHash with
    | .ok true =>
      match ValidatePassword cfg newPassword with
      | .error e => (.error (.policyViolation e), st)
      | .ok _ =>
        let newHash := Hash newPassword salt
        let st1 := updatePassword st userID newHash now
        let st2 := if fp.revokeAllFails then st1 else revokeAllForUser st1 userID now
        (.ok (), st2)
    | _ => (.error .invalidCredentials, st)

/-- Runs `n` consecutive `Login` calls with the same (wrong) password, all at time
`now`; only the resulting store state is tracked. -/
def iterateFailedLogin (cfg : Config) (email password ipAddress userAgent : String)
    (now : Nat) (st : AuthState) : Nat → AuthState
  | 0 => st
  | n + 1 =>
    (Login cfg FailureProfile.reliable
      (iterateFailedLogin cfg email password ipAddress userAgent now st n)
      email password ipAddress userAgent now "" "").2

/-! ### Concrete fixtures used to instantiate the theorems below -/

def sampleSalt : List Nat := List.replicate 16 7

def sampleUser : UserRec :=
  { id := 1, email := "a@x.com", passwordHash := Hash "Passw0rd" sampleSalt
    emailVerified := false, fullName := none, status := .pendingVerification
    role := "user", failedLoginAttempts := 0, lockedUntil := none
    passwordChangedAt := none, lastLoginAt := none, lastLoginIP := none }

def sampleRefreshToken : SignedToken :=
  (GenerateTokenPair defaultConfig 1 "a@x.com" false "user" 0 "jA" "jB").refreshToken

def sampleStored : StoredRefreshToken :=
  { userID := 1, tokenHash := HashToken sampleRefreshToken, expiresAt := 1000
    revoked := false, revokedAt := none, deviceInfo := none, ipAddress := none
    userAgent := none }

def sampleState : AuthState := { users := [sampleUser], tokens := [sampleStored] }

def sampleStateRevoked : AuthState :=
  { users := [sampleUser]
    tokens := [{ sampleStored with revoked := true, revokedAt := some 1 }] }

/-! ## Supporting lemmas -/

theorem b64Val_b64Char {v : Nat} (h : v < 64) : b64Val (b64Char v) = some v := by
  have hall : ∀ w < 64, b64Val (b64Char w) = some w := by decide
  exact hall v h

theorem b64Char_ne_dollar (v : Nat) : b64Char v ≠ '$' := by
  by_cases h : v < 64
  · have hall : ∀ w < 64, b64Char w ≠ '$' := by decide
    exact hall v h
  · unfold b64Char
    rw [List.getD_eq_default]
    · decide
    · have hlen : b64Alphabet.length = 64 := rfl
      omega

theorem dollar_not_mem_b64EncodeList : ∀ bs : List Nat, '$' ∉ b64EncodeList bs
  | [] => by simp [b64EncodeList]
  | [a] => by
    intro h
    simp only [b64EncodeList, List.mem_cons, List.not_mem_nil, or_false] at h
    rcases h with h | h <;> exact b64Char_ne_dollar _ h.symm
  | [a, b] => by
    intro h
    simp only [b64EncodeList, List.mem_cons, List.not_mem_nil, or_false] at h
    rcases h with h | h | h <;> exact b64Char_ne_dollar _ h.symm
  | a :: b :: c :: rest => by
    intro h
    simp only [b64EncodeList, List.mem_cons] at h
    rcases h with h | h | h | h | h
    · exact b64Char_ne_dollar _ h.symm
    · exact b64Char_ne_dollar _ h.symm
    · exact b64Char_ne_dollar _ h.symm
    · exact b64Char_ne_dollar _ h.symm
    · exact dollar_not_mem_b64EncodeList rest h

theorem b64DecodeList_b64EncodeList : ∀ bs : List Nat, (∀ b ∈ bs, b < 256) →
    b64DecodeList (b64EncodeList bs) = some bs
  | [], _ => rfl
  | [a], h => by
    have ha : a < 256 := h a (by simp)
    have h1 : a / 4 < 64 := by omega
    have h2 : a % 4 * 16 < 64 := by omega
    simp only [b64EncodeList, b64DecodeList, b64Val_b64Char h1, b64Val_b64Char h2]
    have : a / 4 * 4 + a % 4 * 16 / 16 = a := by omega
    rw [this]
  | [a, b], h => by
    have ha : a < 256 := h a (by simp)
    have hb : b < 256 := h b (by simp)
    have h1 : a / 4 < 64 := by omega
    have h2 : a % 4 * 16 + b / 16 < 64 := by omega
    have h3 : b % 16 * 4 < 64 := by omega
    simp only [b64EncodeList, b64DecodeList, b64Val_b64Char h1, b64Val_b64Char h2,
      b64Val_b64Char h3]
    have e1 : a / 4 * 4 + (a % 4 * 16 + b / 16) / 16 = a := by omega
    have e2 : (a % 4 * 16 + b / 16) % 16 * 16 + b % 16 * 4 / 4 = b := by omega
    rw [e1, e2]
  | a :: b :: c :: rest, h => by
    have ha : a < 256 := h a (by simp)
    have hb : b < 256 := h b (by simp)
    have hc : c < 256 := h c (by simp)
    have hrest : ∀ x ∈ rest, x < 256 := fun x hx => h x (by simp [hx])
    have h1 : a / 4 < 64 := by omega
    have h2 : a % 4 * 16 + b / 16 < 64 := by omega
    have h3 : b % 16 * 4 + c / 64 < 64 := by omega
    have h4 : c % 64 < 64 := by omega
    have ih := b64DecodeList_b64EncodeList rest hrest
    simp only [b64EncodeList, b64DecodeList, b64Val_b64Char h1, b64Val_b64Char h2,
      b64Val_b64Char h3, b64Val_b64Char h4, ih]
    have e1 : a / 4 * 4 + (a % 4 * 16 + b / 16) / 16 = a := by omega
    have e2 : (a % 4 * 16 + b / 16) % 16 * 16 + (b % 16 * 4 + c / 64) / 4 = b := by omega
    have e3 : (b % 16 * 4 + c / 64) % 4 * 64 + c % 64 = c := by omega
    rw [e1, e2, e3]

theorem splitOnChar_cons_self (sep : Char) (l : List Char) :
    splitOnChar sep (sep :: l) = [] :: splitOnChar sep l := by
  simp [splitOnChar]

theorem splitOnChar_of_not_mem {sep : Char} :
    ∀ {xs : List Char}, sep ∉ xs → splitOnChar sep xs = [xs]
  | [], _ => rfl
  | c :: cs, h => by
    have hc : ¬(c = sep) := fun e => h (e ▸ List.mem_cons_self c cs)
    have hcs : sep ∉ cs := fun e => h (List.mem_cons_of_mem _ e)
    simp only [splitOnChar, if_neg hc, splitOnChar_of_not_mem hcs]

theorem splitOnChar_append {sep : Char} :
    ∀ {xs : List Char} (ys : List Char), sep ∉ xs →
      splitOnChar sep (xs ++ sep :: ys) = xs :: splitOnChar sep ys
  | [], ys, _ => by simp [splitOnChar]
  | c :: cs, ys, h => by
    have hc : ¬(c = sep) := fun e => h (e ▸ List.mem_cons_self c cs)
    have hcs : sep ∉ cs := fun e => h (List.mem_cons_of_mem _ e)
    simp only [List.cons_append, splitOnChar, if_neg hc, List.append_eq,
      splitOnChar_append ys hcs]

theorem pwBytes_all_lt_256 : ∀ l : List Char, ∀ b ∈ pwBytes l, b < 256
  | [], b, hb => by simp [pwBytes] at hb
  | c :: cs, b, hb => by
    simp only [pwBytes, charBytes, List.mem_append, List.mem_cons,
      List.not_mem_nil, or_false] at hb
    rcases hb with (h | h | h | h) | h
    · omega
    · omega
    · omega
    · omega
    · exact pwBytes_all_lt_256 cs b h

theorem argon2IDKey_all_lt_256 (p : String) (salt : List Nat) (i m par k : Nat)
    (hs : ∀ b ∈ salt, b < 256) : ∀ b ∈ argon2IDKey p salt i m par k, b < 256 := by
  intro b hb
  unfold argon2IDKey at hb
  simp only [List.mem_append, List.mem_cons, List.not_mem_nil, or_false] at hb
  rcases hb with (h | h) | h | h | h
  · exact pwBytes_all_lt_256 _ b h
  · exact hs b h
  · omega
  · omega
  · omega

theorem charBytes_inj {c1 c2 : Char} (h : charBytes c1 = charBytes c2) : c1 = c2 := by
  unfold charBytes at h
  simp only [List.cons.injEq, and_true] at h
  obtain ⟨h1, h2, h3, h4⟩ := h
  have hb1 : c1.toNat < 4294967296 := by
    have := c1.val.toBitVec.isLt
    simpa [Char.toNat, UInt32.toNat] using this
  have hb2 : c2.toNat < 4294967296 := by
    have := c2.val.toBitVec.isLt
    simpa [Char.toNat, UInt32.toNat] using this
  have hn : c1.toNat = c2.toNat := by omega
  exact Char.eq_of_val_eq (UInt32.toNat.inj hn)

theorem pwBytes_inj : ∀ {l1 l2 : List Char}, pwBytes l1 = pwBytes l2 → l1 = l2
  | [], [], _ => rfl
  | [], c :: cs, h => by simp [pwBytes, charBytes] at h
  | c :: cs, [], h => by simp [pwBytes, charBytes] at h
  | c1 :: cs1, c2 :: cs2, h => by
    simp only [pwBytes] at h
    have hlen : (charBytes c1).length = (charBytes c2).length := by simp [charBytes]
    obtain ⟨h1, h2⟩ := List.append_inj h hlen
    rw [charBytes_inj h1, pwBytes_inj h2]

theorem argon2IDKey_inj_password {pw1 pw2 : String} {salt : List Nat}
    {i1 m1 p1 k1 i2 m2 p2 k2 : Nat}
    (h : argon2IDKey pw1 salt i1 m1 p1 k1 = argon2IDKey pw2 salt i2 m2 p2 k2)
    (hi : i1 = i2) (hm : m1 = m2) (hp : p1 = p2) : pw1 = pw2 := by
  subst hi hm hp
  unfold argon2IDKey at h
  have hsuf : ([m1 % 256, i1 % 256, p1 % 256] : List Nat).length =
      ([m1 % 256, i1 % 256, p1 % 256] : List Nat).length := rfl
  obtain ⟨h1, -⟩ := List.append_inj' h hsuf
  have hsalt : salt.length = salt.length := rfl
  obtain ⟨h2, -⟩ := List.append_inj' h1 hsalt
  have hdata := pwBytes_inj h2
  cases pw1
  cases pw2
  exact congrArg String.mk (by simpa using hdata)

/-- Decoding an encoded hash produced by `Hash` recovers exactly the
parameters, the salt and the derived key that went in. -/
theorem decodeHash_Hash (p : String) (salt : List Nat) (hs : ∀ b ∈ salt, b < 256) :
    decodeHash (Hash p salt) =
      .ok ({ memory := hasherMemory, iterations := hasherIterations,
             parallelism := hasherParallelism,
             keyLength := (argon2IDKey p salt hasherIterations hasherMemory
               hasherParallelism hasherKeyLength).length },
           salt,
           argon2IDKey p salt hasherIterations hasherMemory hasherParallelism
             hasherKeyLength) := by
  have hkb : ∀ b ∈ argon2IDKey p salt hasherIterations hasherMemory hasherParallelism
      hasherKeyLength, b < 256 :=
    argon2IDKey_all_lt_256 p salt _ _ _ _ hs
  have hsplit : splitOnChar '$' (Hash p salt).data =
      [[], "argon2id".data, ("v=" ++ toString argon2Version).data,
       ("m=" ++ toString hasherMemory ++ ",t=" ++ toString hasherIterations ++
         ",p=" ++ toString hasherParallelism).data,
       b64EncodeList salt,
       b64EncodeList (argon2IDKey p salt hasherIterations hasherMemory hasherParallelism
         hasherKeyLength)] := by
    show splitOnChar '$' (encodeHashChars salt _) = _
    unfold encodeHashChars
    rw [splitOnChar_cons_self]
    rw [splitOnChar_append _ (by decide)]
    rw [splitOnChar_append _ (by decide)]
    rw [splitOnChar_append _ (by decide)]
    rw [splitOnChar_append _ (dollar_not_mem_b64EncodeList salt)]
    rw [splitOnChar_of_not_mem (dollar_not_mem_b64EncodeList _)]
  have hv : parseVersionSegment ('v' :: '=' :: (toString argon2Version).data) =
      some 19 := by decide
  have hp : parseParamSegment
      ('m' :: '=' :: ((toString hasherMemory).data ++ ',' :: 't' :: '=' ::
        ((toString hasherIterations).data ++ ',' :: 'p' :: '=' ::
          (toString hasherParallelism).data))) = some (65536, 3, 2) := by decide
  unfold decodeHash
  rw [hsplit]
  simp [hv, hp, b64DecodeList_b64EncodeList salt hs,
    b64DecodeList_b64EncodeList _ hkb]
  simp [argon2Version, hasherMemory, hasherIterations, hasherParallelism]

theorem Verify_Hash_self (p : String) (salt : List Nat) (hs : ∀ b ∈ salt, b < 256) :
    Verify p (Hash p salt) = .ok true := by
  unfold Verify
  rw [decodeHash_Hash p salt hs]
  exact if_pos rfl

theorem Verify_Hash_other (p p2 : String) (salt : List Nat) (hs : ∀ b ∈ salt, b < 256)
    (hne : p2 ≠ p) : Verify p2 (Hash p salt) = .ok false := by
  unfold Verify
  rw [decodeHash_Hash p salt hs]
  exact if_neg fun h => hne (argon2IDKey_inj_password h.symm rfl rfl rfl)

theorem getUserByEmail_map_users (st : AuthState) (f : UserRec → UserRec) (email : String)
    (hf : ∀ u, (f u).email = u.email) :
    getUserByEmail { st with users := st.users.map f } email =
      (getUserByEmail st email).map f := by
  unfold getUserByEmail
  rw [List.find?_map]
  have hpe : ((fun u => decide (u.email = email)) ∘ f) =
      fun u : UserRec => decide (u.email = email) := by
    funext u
    simp [Function.comp, hf]
  rw [hpe]

theorem getTokenByHash_map_tokens (st : AuthState) (f : StoredRefreshToken → StoredRefreshToken)
    (h : TokenHash) (now : Nat)
    (hf : ∀ r, (f r).tokenHash = r.tokenHash ∧ (f r).expiresAt = r.expiresAt) :
    getTokenByHash { st with tokens := st.tokens.map f } h now =
      (getTokenByHash st h now).map f := by
  unfold getTokenByHash
  rw [List.find?_map]
  have hpe : ((fun r => decide (r.tokenHash = h ∧ now < r.expiresAt)) ∘ f) =
      fun r : StoredRefreshToken => decide (r.tokenHash = h ∧ now < r.expiresAt) := by
    funext r
    simp [Function.comp, (hf r).1, (hf r).2]
  rw [hpe]

theorem getTokenByHash_append_tokens (st : AuthState) (l : List StoredRefreshToken)
    (h : TokenHash) (now : Nat) :
    getTokenByHash { st with tokens := st.tokens ++ l } h now =
      (getTokenByHash st h now).or
        (l.find? (fun r => decide (r.tokenHash = h ∧ now < r.expiresAt))) := by
  unfold getTokenByHash
  rw [List.find?_append]

/-! ## Claim theorems -/

/-- C4: for every password `p` that satisfies the policy, `Verify(p, Hash(p))`
returns `true` with no error, and for every `p2 ≠ p`, `Verify(p2, Hash(p))`
returns `false` (for any 16-byte salt `Hash` may have drawn). -/
theorem verify_hash_correct (cfg : Config) (p p2 : String) (salt : List Nat)
    (hpol : ValidatePassword cfg p = .ok ())
    (hlen : salt.length = hasherSaltLength)
    (hsalt : ∀ b ∈ salt, b < 256) :
    Verify p (Hash p salt) = .ok true ∧
      (p2 ≠ p → Verify p2 (Hash p salt) = .ok false) :=
  ⟨Verify_Hash_self p salt hsalt, fun hne => Verify_Hash_other p p2 salt hsalt hne⟩

theorem verify_hash_correct_witness :
    ValidatePassword defaultConfig "Passw0rd" = .ok () ∧
    Verify "Passw0rd" (Hash "Passw0rd" sampleSalt) = .ok true ∧
    Verify "Passw0rd2" (Hash "Passw0rd" sampleSalt) = .ok false := by
  refine ⟨by decide, ?_, ?_⟩
  · exact (verify_hash_correct defaultConfig "Passw0rd" "Passw0rd2" sampleSalt
      (by decide) (by decide) (by decide)).1
  · exact (verify_hash_correct defaultConfig "Passw0rd" "Passw0rd2" sampleSalt
      (by decide) (by decide) (by decide)).2 (by decide)

/-- C6: whenever decoding an encoded hash fails (corrupted parameter segment,
bad part count, unknown algorithm, version mismatch, bad base64, ...),
`Verify` returns that decode error for every password — never a match. -/
theorem verify_decode_error_no_match (password encodedHash : String) (e : DecodeError)
    (h : decodeHash encodedHash = .error e) :
    Verify password encodedHash = .error e := by
  unfold Verify
  rw [h]

theorem verify_decode_error_no_match_witness :
    decodeHash "$argon2id$v=19$m=xx,t=3,p=2$AAAA$AAAA" = .error .invalidParameters ∧
    Verify "anything" "$argon2id$v=19$m=xx,t=3,p=2$AAAA$AAAA" =
      .error .invalidParameters :=
  ⟨by decide, verify_decode_error_no_match "anything" _ _ (by decide)⟩

/-- C5: a generated access token is rejected by `VerifyRefreshToken` with
`ErrInvalidToken` (when presented while it is alive; at any time it is never
accepted), and symmetrically for the refresh token and `VerifyAccessToken`. -/
theorem token_type_confusion_rejected (cfg : Config) (userID : Int) (email : String)
    (emailVerified : Bool) (role : String) (now t1 t2 : Nat) (j1 j2 : String)
    (h1 : t1 < now + cfg.accessTokenDuration)
    (h2 : t2 < now + cfg.refreshTokenDuration) :
    VerifyRefreshToken cfg t1
        (GenerateTokenPair cfg userID email emailVerified role now j1 j2).accessToken =
      .error .invalidToken ∧
    VerifyAccessToken cfg t2
        (GenerateTokenPair cfg userID email emailVerified role now j1 j2).refreshToken =
      .error .invalidToken ∧
    (∀ t3 c, VerifyRefreshToken cfg t3
        (GenerateTokenPair cfg userID email emailVerified role now j1 j2).accessToken ≠
      .ok c) ∧
    (∀ t3 c, VerifyAccessToken cfg t3
        (GenerateTokenPair cfg userID email emailVerified role now j1 j2).refreshToken ≠
      .ok c) := by
  refine ⟨?_, ?_, ?_, ?_⟩
  · unfold VerifyRefreshToken verifyToken GenerateTokenPair
    simp [Nat.not_le.mpr h1]
  · unfold VerifyAccessToken verifyToken GenerateTokenPair
    simp [Nat.not_le.mpr h2]
  · intro t3 c
    unfold VerifyRefreshToken verifyToken GenerateTokenPair
    by_cases he : now + cfg.accessTokenDuration ≤ t3 <;> simp [he]
  · intro t3 c
    unfold VerifyAccessToken verifyToken GenerateTokenPair
    by_cases he : now + cfg.refreshTokenDuration ≤ t3 <;> simp [he]

theorem token_type_confusion_rejected_witness :
    (0 : Nat) < 0 + defaultConfig.accessTokenDuration ∧
    VerifyRefreshToken defaultConfig 0
        (GenerateTokenPair defaultConfig 1 "a@x.com" false "user" 0 "jA" "jB").accessToken =
      .error .invalidToken ∧
    VerifyAccessToken defaultConfig 0
        (GenerateTokenPair defaultConfig 1 "a@x.com" false "user" 0 "jA" "jB").refreshToken =
      .error .invalidToken := by
  have h := token_type_confusion_rejected defaultConfig 1 "a@x.com" false "user" 0 0 0
    "jA" "jB" (by decide) (by decide)
  exact ⟨by decide, h.1, h.2.1⟩

/-- C7: `ChangePassword` with a current password that does not verify against
the stored hash returns `ErrInvalidCredentials` and leaves the entire store —
in particular the stored password hash and every refresh token — unchanged,
for every failure profile. -/
theorem changePassword_wrong_current_noop (cfg : Config) (fp : FailureProfile)
    (st : AuthState) (userID : Int) (currentPassword newPassword : String)
    (salt : List Nat) (now : Nat) (u : UserRec)
    (hu : getUserByID st userID = some u)
    (hbad : Verify currentPassword u.passwordHash ≠ .ok true) :
    ChangePassword cfg fp st userID currentPassword newPassword salt now =
      (.error .invalidCredentials, st) ∧
    (ChangePassword cfg fp st userID currentPassword newPassword salt now).2.users =
      st.users ∧
    (ChangePassword cfg fp st userID currentPassword newPassword salt now).2.tokens =
      st.tokens := by
  have hmain : ChangePassword cfg fp st userID currentPassword newPassword salt now =
      (.error .invalidCredentials, st) := by
    unfold ChangePassword
    simp only [hu]
  exact ⟨hmain, by rw [hmain], by rw [hmain]⟩

theorem changePassword_wrong_current_noop_witness :
    getUserByID sampleState 1 = some sampleUser ∧
    ChangePassword defaultConfig FailureProfile.reliable sampleState 1 "WrongPw1"
      "NewPassw0rd" sampleSalt 50 = (.error .invalidCredentials, sampleState) := by
  have h := changePassword_wrong_current_noop defaultConfig FailureProfile.reliable
    sampleState 1 "WrongPw1" "NewPassw0rd" sampleSalt 50 sampleUser (by decide) (by decide)
  exact ⟨by decide, h.1⟩

theorem forall₂_map_self {α : Type} (R : α → α → Prop) (f : α → α) (l : List α)
    (h : ∀ x ∈ l, R x (f x)) : List.Forall₂ R l (l.map f) := by
  rw [List.forall₂_map_right_iff]
  exact List.forall₂_same.mpr h

/-- A freshly generated refresh token passes `VerifyRefreshToken` at any time
before its expiry. -/
theorem verifyRefresh_generated (cfg : Config) (uid : Int) (email : String)
    (ev : Bool) (role : String) (now t : Nat) (j1 j2 : String)
    (ht : t < now + cfg.refreshTokenDuration) :
    VerifyRefreshToken cfg t
        (GenerateTokenPair cfg uid email ev role now j1 j2).refreshToken =
      .ok (GenerateTokenPair cfg uid email ev role now j1 j2).refreshToken.claims := by
  unfold VerifyRefreshToken verifyToken GenerateTokenPair
  simp [Nat.not_le.mpr ht]

/-- C8: `Logout` revokes exactly the rows whose stored hash matches the
presented token and leaves every other row (and all users) untouched;
`LogoutAll` revokes every row of the given user and leaves other users' rows
untouched. -/
theorem logout_revokes_exactly_presented (st : AuthState) (rt : SignedToken)
    (uid : Int) (now : Nat) :
    (Logout st rt now).1 = .ok () ∧
    (Logout st rt now).2.users = st.users ∧
    List.Forall₂ (fun old new =>
        (old.tokenHash = HashToken rt →
          new = { old with revoked := true, revokedAt := some now }) ∧
        (old.tokenHash ≠ HashToken rt → new = old))
      st.tokens (Logout st rt now).2.tokens ∧
    (LogoutAll st uid now).1 = .ok () ∧
    (LogoutAll st uid now).2.users = st.users ∧
    List.Forall₂ (fun old new =>
        (old.userID = uid → new.revoked = true) ∧
        (old.userID ≠ uid → new = old))
      st.tokens (LogoutAll st uid now).2.tokens := by
  refine ⟨rfl, rfl, ?_, rfl, rfl, ?_⟩
  · apply forall₂_map_self
    intro x _
    constructor
    · intro he
      simp [he]
    · intro hne
      simp [hne]
  · apply forall₂_map_self
    intro x _
    constructor
    · intro he
      by_cases hr : x.revoked <;> simp [he, hr]
    · intro hne
      simp [hne]

theorem logout_revokes_exactly_presented_witness :
    (Logout sampleState sampleRefreshToken 40).1 = .ok () ∧
    (Logout sampleState sampleRefreshToken 40).2.users = sampleState.users :=
  ⟨(logout_revokes_exactly_presented sampleState sampleRefreshToken 1 40).1,
   (logout_revokes_exactly_presented sampleState sampleRefreshToken 1 40).2.1⟩

/-- C9: `Login` with an absent email and `Login` with a present email but a
non-verifying password return the identical `ErrInvalidCredentials` sentinel,
so the caller cannot distinguish the two cases. -/
theorem login_enumeration_resistance (cfg : Config) (fp : FailureProfile)
    (st1 st2 : AuthState) (email1 email2 pw1 pw2 ip ua : String) (now : Nat)
    (j1 j2 : String) (u : UserRec)
    (habsent : getUserByEmail st1 email1 = none)
    (hfound : getUserByEmail st2 email2 = some u)
    (hnlock : u.isLocked now = false)
    (hstatus : u.status = .active ∨ u.status = .pendingVerification)
    (hbad : Verify pw2 u.passwordHash ≠ .ok true) :
    (Login cfg fp st1 email1 pw1 ip ua now j1 j2).1 = .error .invalidCredentials ∧
    (Login cfg fp st2 email2 pw2 ip ua now j1 j2).1 = .error .invalidCredentials ∧
    (Login cfg fp st1 email1 pw1 ip ua now j1 j2).1 =
      (Login cfg fp st2 email2 pw2 ip ua now j1 j2).1 := by
  have hstatus' : ¬(u.status ≠ UserStatus.active ∧ u.status ≠ UserStatus.pendingVerification) := by
    rcases hstatus with h | h <;> simp [h]
  have h1 : (Login cfg fp st1 email1 pw1 ip ua now j1 j2).1 = .error .invalidCredentials := by
    unfold Login
    simp [habsent]
  have h2 : (Login cfg fp st2 email2 pw2 ip ua now j1 j2).1 = .error .invalidCredentials := by
    unfold Login
    simp only [hfound, hnlock, if_neg hstatus']
    simp
  exact ⟨h1, h2, by rw [h1, h2]⟩

theorem login_enumeration_resistance_witness :
    getUserByEmail sampleState "nobody@x.com" = none ∧
    (Login defaultConfig FailureProfile.reliable sampleState "nobody@x.com" "Passw0rd"
      "" "" 40 "j1" "j2").1 = .error .invalidCredentials ∧
    (Login defaultConfig FailureProfile.reliable sampleState "a@x.com" "WrongPw1"
      "" "" 40 "j1" "j2").1 = .error .invalidCredentials := by
  have h := login_enumeration_resistance defaultConfig FailureProfile.reliable
    sampleState sampleState "nobody@x.com" "a@x.com" "Passw0rd" "WrongPw1" "" "" 40
    "j1" "j2" sampleUser (by decide) (by decide) (by decide) (by decide) (by decide)
  exact ⟨by decide, h.1, h.2.1⟩

/-- C10: when every check in `Login` passes but the refresh-token store's
`Create` call fails, `Login` still returns the generated pair and the user
with no error (the failure is only logged); no row with the new hash is
stored, so the returned refresh token can never be redeemed: a later
`RefreshTokens` on it fails with `ErrInvalidToken`. -/
theorem login_swallows_create_failure (cfg : Config) (st : AuthState)
    (email password ip ua : String) (now : Nat) (j1 j2 : String) (u : UserRec)
    (hu : getUserByEmail st email = some u)
    (hnlock : u.isLocked now = false)
    (hstatus : u.status = .active ∨ u.status = .pendingVerification)
    (hpw : Verify password u.passwordHash = .ok true) :
    (Login cfg { FailureProfile.reliable with createFails := true } st email password
        ip ua now j1 j2).1 =
      .ok (GenerateTokenPair cfg u.id u.email u.emailVerified u.role now j1 j2, u) ∧
    (Login cfg { FailureProfile.reliable with createFails := true } st email password
        ip ua now j1 j2).2.tokens = st.tokens ∧
    (∀ t2 : Nat, ∀ j3 j4 : String, t2 < now + cfg.refreshTokenDuration →
      (∀ r ∈ st.tokens, r.tokenHash ≠
        HashToken (GenerateTokenPair cfg u.id u.email u.emailVerified u.role now
          j1 j2).refreshToken) →
      (RefreshTokens cfg FailureProfile.reliable
        (Login cfg { FailureProfile.reliable with createFails := true } st email password
          ip ua now j1 j2).2
        (GenerateTokenPair cfg u.id u.email u.emailVerified u.role now j1 j2).refreshToken
        t2 j3 j4).1 = .error .invalidToken) := by
  have hstatus' : ¬(u.status ≠ UserStatus.active ∧ u.status ≠ UserStatus.pendingVerification) := by
    rcases hstatus with h | h <;> simp [h]
  have hlogin : Login cfg { FailureProfile.reliable with createFails := true } st email
      password ip ua now j1 j2 =
      (.ok (GenerateTokenPair cfg u.id u.email u.emailVerified u.role now j1 j2, u),
       updateLastLogin
         (if u.failedLoginAttempts > 0 then resetFailedLoginAttempts st u.id else st)
         u.id ip now) := by
    unfold Login
    simp only [hu, hnlock, if_neg hstatus', hpw]
    simp [FailureProfile.reliable]
  have htokens : (Login cfg { FailureProfile.reliable with createFails := true } st email
      password ip ua now j1 j2).2.tokens = st.tokens := by
    rw [hlogin]
    by_cases hf : u.failedLoginAttempts > 0 <;>
      simp [hf, updateLastLogin, resetFailedLoginAttempts]
  refine ⟨by rw [hlogin], htokens, ?_⟩
  intro t2 j3 j4 ht hnew
  have hv := verifyRefresh_generated cfg u.id u.email u.emailVerified u.role now t2 j1 j2 ht
  have hlookup : getTokenByHash
      (Login cfg { FailureProfile.reliable with createFails := true } st email password
        ip ua now j1 j2).2
      (HashToken (GenerateTokenPair cfg u.id u.email u.emailVerified u.role now
        j1 j2).refreshToken) t2 = none := by
    unfold getTokenByHash
    rw [htokens]
    apply List.find?_eq_none.mpr
    intro r hr
    simp only [decide_eq_true_eq, not_and]
    intro habs
    exact absurd habs (hnew r hr)
  unfold RefreshTokens
  rw [hv]
  simp [hlookup]

theorem login_swallows_create_failure_witness :
    Verify "Passw0rd" sampleUser.passwordHash = .ok true ∧
    (Login defaultConfig { FailureProfile.reliable with createFails := true } sampleState
      "a@x.com" "Passw0rd" "" "" 40 "j1" "j2").1 =
      .ok (GenerateTokenPair defaultConfig 1 "a@x.com" false "user" 40 "j1" "j2",
        sampleUser) := by
  have h := login_swallows_create_failure defaultConfig sampleState "a@x.com" "Passw0rd"
    "" "" 40 "j1" "j2" sampleUser (by decide) (by decide) (by decide) (by decide)
  exact ⟨by decide, h.1⟩

/-- Computation of the successful rotation branch of `RefreshTokens`. -/
theorem refresh_rotation_success (cfg : Config) (st : AuthState) (rt : SignedToken)
    (now : Nat) (j1 j2 : String) (c : Claims) (r : StoredRefreshToken)
    (hv : VerifyRefreshToken cfg now rt = .ok c)
    (hr : getTokenByHash st (HashToken rt) now = some r)
    (hnrev : r.revoked = false) :
    RefreshTokens cfg FailureProfile.reliable st rt now j1 j2 =
      (.ok (GenerateTokenPair cfg c.userID c.email c.emailVerified c.role now j1 j2),
       createToken (revokeToken st (HashToken rt) now) c.userID
         (HashToken (GenerateTokenPair cfg c.userID c.email c.emailVerified c.role now
           j1 j2).refreshToken)
         (now + cfg.refreshTokenDuration) none none none) := by
  unfold RefreshTokens
  rw [hv]
  simp [hr, hnrev, FailureProfile.reliable]

/-- C2: rotation is single-use.  After a successful `RefreshTokens(t)` —
which revokes the presented hash and persists a new pair — a second
`RefreshTokens(t)` (at any later instant at which the stored row is still
unexpired and the JWT still verifies) fails with `ErrInvalidToken`. -/
theorem refreshTokens_single_use (cfg : Config) (st : AuthState) (rt : SignedToken)
    (now now2 : Nat) (j1 j2 j3 j4 : String) (c : Claims) (r : StoredRefreshToken)
    (hv1 : VerifyRefreshToken cfg now rt = .ok c)
    (hv2 : VerifyRefreshToken cfg now2 rt = .ok c)
    (hr : getTokenByHash st (HashToken rt) now = some r)
    (hnrev : r.revoked = false)
    (hexp : now2 < r.expiresAt) :
    (RefreshTokens cfg FailureProfile.reliable st rt now j1 j2).1 =
      .ok (GenerateTokenPair cfg c.userID c.email c.emailVerified c.role now j1 j2) ∧
    (RefreshTokens cfg FailureProfile.reliable
        (RefreshTokens cfg FailureProfile.reliable st rt now j1 j2).2 rt now2 j3 j4).1 =
      .error .invalidToken := by
  have hrun := refresh_rotation_success cfg st rt now j1 j2 c r hv1 hr hnrev
  refine ⟨by rw [hrun], ?_⟩
  rw [hrun]
  have hmem : r ∈ st.tokens := List.mem_of_find?_eq_some hr
  have hhash : r.tokenHash = HashToken rt := by
    have hp := List.find?_some hr
    simp only [decide_eq_true_eq] at hp
    exact hp.1
  have hpred2 : (fun x : StoredRefreshToken =>
      decide (x.tokenHash = HashToken rt ∧ now2 < x.expiresAt)) r = true := by
    simp [hhash, hexp]
  have hfpres : ∀ x : StoredRefreshToken,
      ((if x.tokenHash = HashToken rt then
          { x with revoked := true, revokedAt := some now } else x).tokenHash =
        x.tokenHash) ∧
      ((if x.tokenHash = HashToken rt then
          { x with revoked := true, revokedAt := some now } else x).expiresAt =
        x.expiresAt) := by
    intro x
    by_cases hx : x.tokenHash = HashToken rt <;> simp [hx]
  have hmap : getTokenByHash (revokeToken st (HashToken rt) now) (HashToken rt) now2 =
      (getTokenByHash st (HashToken rt) now2).map fun x =>
        if x.tokenHash = HashToken rt then
          { x with revoked := true, revokedAt := some now } else x :=
    getTokenByHash_map_tokens st _ _ _ hfpres
  have hsome : (getTokenByHash st (HashToken rt) now2).isSome := by
    unfold getTokenByHash
    exact List.find?_isSome.mpr ⟨r, hmem, hpred2⟩
  obtain ⟨x, hx⟩ := Option.isSome_iff_exists.mp hsome
  have hxprop := List.find?_some hx
  simp only [decide_eq_true_eq] at hxprop
  have hmapx : getTokenByHash (revokeToken st (HashToken rt) now) (HashToken rt) now2 =
      some { x with revoked := true, revokedAt := some now } := by
    rw [hmap, hx]
    simp [hxprop.1]
  have hlookup2 : getTokenByHash
      (createToken (revokeToken st (HashToken rt) now) c.userID
        (HashToken (GenerateTokenPair cfg c.userID c.email c.emailVerified c.role now
          j1 j2).refreshToken)
        (now + cfg.refreshTokenDuration) none none none)
      (HashToken rt) now2 =
      some { x with revoked := true, revokedAt := some now } := by
    have happ := getTokenByHash_append_tokens (revokeToken st (HashToken rt) now)
      [{ userID := c.userID
         tokenHash := HashToken (GenerateTokenPair cfg c.userID c.email c.emailVerified
           c.role now j1 j2).refreshToken
         expiresAt := now + cfg.refreshTokenDuration, revoked := false
         revokedAt := none, deviceInfo := none, ipAddress := none, userAgent := none }]
      (HashToken rt) now2
    rw [show getTokenByHash
        (createToken (revokeToken st (HashToken rt) now) c.userID
          (HashToken (GenerateTokenPair cfg c.userID c.email c.emailVerified c.role now
            j1 j2).refreshToken)
          (now + cfg.refreshTokenDuration) none none none)
        (HashToken rt) now2 =
        getTokenByHash { revokeToken st (HashToken rt) now with
          tokens := (revokeToken st (HashToken rt) now).tokens ++ _ }
        (HashToken rt) now2 from rfl, happ, hmapx]
    rfl
  unfold RefreshTokens
  rw [hv2]
  simp [hlookup2]

theorem refreshTokens_single_use_witness :
    getTokenByHash sampleState (HashToken sampleRefreshToken) 5 = some sampleStored ∧
    (RefreshTokens defaultConfig FailureProfile.reliable sampleState sampleRefreshToken
      5 "j1" "j2").1 =
      .ok (GenerateTokenPair defaultConfig 1 "a@x.com" false "user" 5 "j1" "j2") ∧
    (RefreshTokens defaultConfig FailureProfile.reliable
      (RefreshTokens defaultConfig FailureProfile.reliable sampleState sampleRefreshToken
        5 "j1" "j2").2 sampleRefreshToken 6 "j3" "j4").1 = .error .invalidToken := by
  have h := refreshTokens_single_use defaultConfig sampleState sampleRefreshToken 5 6
    "j1" "j2" "j3" "j4" sampleRefreshToken.claims sampleStored
    (by decide) (by decide) (by decide) (by decide) (by decide)
  exact ⟨by decide, h.1, h.2⟩

/-- C1: presenting a stored-but-revoked refresh token is treated as reuse:
the call fails with `ErrInvalidToken` and revokes every token of the claimed
user; afterwards a refresh with any other previously-valid token of that user
also fails with `ErrInvalidToken`. -/
theorem refreshTokens_reuse_revokes_all (cfg : Config) (st : AuthState)
    (rt : SignedToken) (now : Nat) (j1 j2 : String) (c : Claims)
    (r : StoredRefreshToken)
    (hv : VerifyRefreshToken cfg now rt = .ok c)
    (hr : getTokenByHash st (HashToken rt) now = some r)
    (hrev : r.revoked = true) :
    (RefreshTokens cfg FailureProfile.reliable st rt now j1 j2).1 =
      .error .invalidToken ∧
    (RefreshTokens cfg FailureProfile.reliable st rt now j1 j2).2 =
      revokeAllForUser st c.userID now ∧
    (∀ r2 ∈ (RefreshTokens cfg FailureProfile.reliable st rt now j1 j2).2.tokens,
      r2.userID = c.userID → r2.revoked = true) ∧
    (∀ rt2 : SignedToken, ∀ now2 : Nat, ∀ j3 j4 : String, ∀ c2 : Claims,
      ∀ r3 : StoredRefreshToken,
      VerifyRefreshToken cfg now2 rt2 = .ok c2 →
      getTokenByHash st (HashToken rt2) now2 = some r3 →
      r3.revoked = false → r3.userID = c.userID →
      (RefreshTokens cfg FailureProfile.reliable
        (RefreshTokens cfg FailureProfile.reliable st rt now j1 j2).2
        rt2 now2 j3 j4).1 = .error .invalidToken) := by
  have hrun : RefreshTokens cfg FailureProfile.reliable st rt now j1 j2 =
      (.error .invalidToken, revokeAllForUser st c.userID now) := by
    unfold RefreshTokens
    rw [hv]
    simp [hr, hrev, FailureProfile.reliable]
  have hfpres : ∀ x : StoredRefreshToken,
      ((if x.userID = c.userID ∧ x.revoked = false then
          { x with revoked := true, revokedAt := some now } else x).tokenHash =
        x.tokenHash) ∧
      ((if x.userID = c.userID ∧ x.revoked = false then
          { x with revoked := true, revokedAt := some now } else x).expiresAt =
        x.expiresAt) := by
    intro x
    by_cases hx : x.userID = c.userID ∧ x.revoked = false <;> simp [hx]
  refine ⟨by rw [hrun], by rw [hrun], ?_, ?_⟩
  · rw [hrun]
    intro r2 hr2
    simp only [revokeAllForUser, List.mem_map] at hr2
    obtain ⟨x, hx, hfx⟩ := hr2
    intro huid
    by_cases hcond : x.userID = c.userID ∧ x.revoked = false
    · rw [← hfx, if_pos hcond]
    · rw [← hfx, if_neg hcond] at huid ⊢
      by_cases hxr : x.revoked = false
      · exact absurd ⟨huid, hxr⟩ hcond
      · simpa using hxr
  · intro rt2 now2 j3 j4 c2 r3 hv2 hr3 hnrev3 huid3
    rw [hrun]
    have hmap : getTokenByHash (revokeAllForUser st c.userID now) (HashToken rt2) now2 =
        (getTokenByHash st (HashToken rt2) now2).map fun x =>
          if x.userID = c.userID ∧ x.revoked = false then
            { x with revoked := true, revokedAt := some now } else x :=
      getTokenByHash_map_tokens st _ _ _ hfpres
    rw [hr3] at hmap
    have hg : (if r3.userID = c.userID ∧ r3.revoked = false then
        { r3 with revoked := true, revokedAt := some now } else r3) =
        { r3 with revoked := true, revokedAt := some now } :=
      if_pos ⟨huid3, hnrev3⟩
    unfold RefreshTokens
    rw [hv2]
    simp [hmap, hg]

theorem refreshTokens_reuse_revokes_all_witness :
    getTokenByHash sampleStateRevoked (HashToken sampleRefreshToken) 5 =
      some { sampleStored with revoked := true, revokedAt := some 1 } ∧
    (RefreshTokens defaultConfig FailureProfile.reliable sampleStateRevoked
      sampleRefreshToken 5 "j1" "j2").1 = .error .invalidToken ∧
    (RefreshTokens defaultConfig FailureProfile.reliable sampleStateRevoked
      sampleRefreshToken 5 "j1" "j2").2 =
      revokeAllForUser sampleStateRevoked sampleRefreshToken.claims.userID 5 := by
  have h := refreshTokens_reuse_revokes_all defaultConfig sampleStateRevoked
    sampleRefreshToken 5 "j1" "j2" sampleRefreshToken.claims
    { sampleStored with revoked := true, revokedAt := some 1 }
    (by decide) (by decide) (by decide)
  exact ⟨by decide, h.1, h.2.1⟩

/-- One failed `Login`: the counter row is incremented, and the account is
locked exactly when the incremented counter reaches the threshold. -/
theorem login_fail_step (cfg : Config) (st : AuthState)
    (email password ip ua : String) (now : Nat) (j1 j2 : String) (u : UserRec)
    (hu : getUserByEmail st email = some u)
    (hlock : u.lockedUntil = none)
    (hstatus : u.status = .active ∨ u.status = .pendingVerification)
    (hbad : Verify password u.passwordHash ≠ .ok true) :
    Login cfg FailureProfile.reliable st email password ip ua now j1 j2 =
      (.error .invalidCredentials,
        if u.failedLoginAttempts + 1 ≥ cfg.maxFailedAttempts then
          lockAccount (incrementFailedLoginAttempts st u.id) u.id
            (now + cfg.lockoutDuration)
        else incrementFailedLoginAttempts st u.id) := by
  have hstatus' : ¬(u.status ≠ UserStatus.active ∧
      u.status ≠ UserStatus.pendingVerification) := by
    rcases hstatus with h | h <;> simp [h]
  have hl : u.isLocked now = false := by simp [UserRec.isLocked, hlock]
  unfold Login
  simp only [hu, hl, if_neg hstatus']
  simp [FailureProfile.reliable]

theorem getUserByEmail_increment (st : AuthState) (id : Int) (email : String) :
    getUserByEmail (incrementFailedLoginAttempts st id) email =
      (getUserByEmail st email).map fun v =>
        if v.id = id then { v with failedLoginAttempts := v.failedLoginAttempts + 1 }
        else v :=
  getUserByEmail_map_users st _ email fun v => by
    by_cases hv : v.id = id <;> simp [hv]

theorem getUserByEmail_lock (st : AuthState) (id : Int) (t : Nat) (email : String) :
    getUserByEmail (lockAccount st id t) email =
      (getUserByEmail st email).map fun v =>
        if v.id = id then { v with lockedUntil := some t } else v :=
  getUserByEmail_map_users st _ email fun v => by
    by_cases hv : v.id = id <;> simp [hv]

/-- After `k < MaxFailedAttempts` consecutive failed logins starting from a
clean account, the account's row shows `k` failed attempts and no lock. -/
theorem iterateFailedLogin_invariant (cfg : Config) (st : AuthState)
    (email password ip ua : String) (now : Nat) (u : UserRec)
    (hu : getUserByEmail st email = some u)
    (hzero : u.failedLoginAttempts = 0)
    (hlock : u.lockedUntil = none)
    (hstatus : u.status = .active ∨ u.status = .pendingVerification)
    (hbad : Verify password u.passwordHash ≠ .ok true) :
    ∀ k, k < cfg.maxFailedAttempts →
      getUserByEmail (iterateFailedLogin cfg email password ip ua now st k) email =
        some { u with failedLoginAttempts := k } := by
  intro k
  induction k with
  | zero =>
    intro _
    rw [show ({ u with failedLoginAttempts := 0 } : UserRec) = u from by
      rw [← hzero]]
    exact hu
  | succ k ih =>
    intro hk
    have hprev := ih (Nat.lt_of_succ_lt hk)
    have hstep := login_fail_step cfg
      (iterateFailedLogin cfg email password ip ua now st k) email password ip ua now
      "" "" { u with failedLoginAttempts := k } hprev (by simpa using hlock)
      (by simpa using hstatus) (by simpa using hbad)
    show getUserByEmail (Login cfg FailureProfile.reliable
      (iterateFailedLogin cfg email password ip ua now st k) email password ip ua now
      "" "").2 email = _
    rw [hstep]
    have hnotth : ¬(({ u with failedLoginAttempts := k } : UserRec).failedLoginAttempts
        + 1 ≥ cfg.maxFailedAttempts) := by
      simp only []
      omega
    rw [if_neg hnotth]
    rw [show ({ u with failedLoginAttempts := k } : UserRec).id = u.id from rfl]
    rw [getUserByEmail_increment, hprev]
    simp

/-- The `MaxFailedAttempts`-th consecutive failed login locks the account
until `now + LockoutDuration`. -/
theorem iterateFailedLogin_locks (cfg : Config) (st : AuthState)
    (email password ip ua : String) (now : Nat) (u : UserRec)
    (hu : getUserByEmail st email = some u)
    (hzero : u.failedLoginAttempts = 0)
    (hlock : u.lockedUntil = none)
    (hstatus : u.status = .active ∨ u.status = .pendingVerification)
    (hbad : Verify password u.passwordHash ≠ .ok true)
    (hpos : 1 ≤ cfg.maxFailedAttempts) :
    getUserByEmail
      (iterateFailedLogin cfg email password ip ua now st cfg.maxFailedAttempts) email =
      some { u with failedLoginAttempts := cfg.maxFailedAttempts,
                    lockedUntil := some (now + cfg.lockoutDuration) } := by
  obtain ⟨M, hM⟩ : ∃ M, cfg.maxFailedAttempts = M + 1 :=
    ⟨cfg.maxFailedAttempts - 1, by omega⟩
  have hprev := iterateFailedLogin_invariant cfg st email password ip ua now u hu hzero
    hlock hstatus hbad M (by omega)
  rw [hM]
  have hstep := login_fail_step cfg
    (iterateFailedLogin cfg email password ip ua now st M) email password ip ua now
    "" "" { u with failedLoginAttempts := M } hprev (by simpa using hlock)
    (by simpa using hstatus) (by simpa using hbad)
  show getUserByEmail (Login cfg FailureProfile.reliable
    (iterateFailedLogin cfg email password ip ua now st M) email password ip ua now
    "" "").2 email = _
  rw [hstep]
  have hth : (({ u with failedLoginAttempts := M } : UserRec).failedLoginAttempts
      + 1 ≥ cfg.maxFailedAttempts) := by
    simp only []
    omega
  rw [if_pos hth]
  rw [show ({ u with failedLoginAttempts := M } : UserRec).id = u.id from rfl]
  rw [getUserByEmail_lock, getUserByEmail_increment, hprev]
  simp

/-- Running `Login` on an account whose lock is in the future fails with
`ErrAccountLocked` regardless of the presented password. -/
theorem login_locked (cfg : Config) (fp : FailureProfile) (st : AuthState)
    (email password ip ua : String) (now : Nat) (j1 j2 : String) (v : UserRec)
    (hv : getUserByEmail st email = some v)
    (hl : v.isLocked now = true) :
    (Login cfg fp st email password ip ua now j1 j2).1 = .error .accountLocked := by
  unfold Login
  simp [hv, hl]

/-- C3: after `MaxFailedAttempts` consecutive failed logins the account's
`locked_until` is `now + LockoutDuration`, and while that instant is in the
future every further login — whatever password is presented — fails with
`ErrAccountLocked`. -/
theorem login_lockout_after_threshold (cfg : Config) (st : AuthState)
    (email password ip ua : String) (now : Nat) (u : UserRec)
    (hu : getUserByEmail st email = some u)
    (hzero : u.failedLoginAttempts = 0)
    (hlock : u.lockedUntil = none)
    (hstatus : u.status = .active ∨ u.status = .pendingVerification)
    (hbad : Verify password u.passwordHash ≠ .ok true)
    (hpos : 1 ≤ cfg.maxFailedAttempts) :
    (getUserByEmail
      (iterateFailedLogin cfg email password ip ua now st cfg.maxFailedAttempts) email =
      some { u with failedLoginAttempts := cfg.maxFailedAttempts,
                    lockedUntil := some (now + cfg.lockoutDuration) }) ∧
    (∀ pw2 : String, ∀ now2 : Nat, ∀ j1 j2 : String,
      now2 < now + cfg.lockoutDuration →
      (Login cfg FailureProfile.reliable
        (iterateFailedLogin cfg email password ip ua now st cfg.maxFailedAttempts)
        email pw2 ip ua now2 j1 j2).1 = .error .accountLocked) := by
  have hlocked := iterateFailedLogin_locks cfg st email password ip ua now u hu hzero
    hlock hstatus hbad hpos
  refine ⟨hlocked, ?_⟩
  intro pw2 now2 j1 j2 hnow2
  exact login_locked cfg FailureProfile.reliable _ email pw2 ip ua now2 j1 j2 _
    hlocked (by simp [UserRec.isLocked, hnow2])

theorem login_lockout_after_threshold_witness :
    getUserByEmail
      (iterateFailedLogin defaultConfig "a@x.com" "WrongPw1" "" "" 100 sampleState
        defaultConfig.maxFailedAttempts) "a@x.com" =
      some { sampleUser with failedLoginAttempts := defaultConfig.maxFailedAttempts,
                             lockedUntil := some (100 + defaultConfig.lockoutDuration) } ∧
    (Login defaultConfig FailureProfile.reliable
      (iterateFailedLogin defaultConfig "a@x.com" "WrongPw1" "" "" 100 sampleState
        defaultConfig.maxFailedAttempts)
      "a@x.com" "Passw0rd" "" "" 200 "j1" "j2").1 = .error .accountLocked := by
  have h := login_lockout_after_threshold defaultConfig sampleState "a@x.com" "WrongPw1"
    "" "" 100 sampleUser (by decide) (by decide) (by decide) (by decide) (by decide)
    (by decide)
  exact ⟨h.1, h.2 "Passw0rd" 200 "j1" "j2" (by decide)⟩

end SaaS
